import Mathlib

/-
Verification of the Brian2 simulation web application core
(src/simulator.py, src/topology.py, src/app.py) against its
natural-language specification.

Conventions of the shallow embedding:
* Python floats are modelled as exact rationals (ℚ); Python ints as ℤ/ℕ.
* The numpy RNG (np.random.randn) and the networkx graph builders
  (watts_strogatz_graph, barabasi_albert_graph, stochastic_block_model)
  are external to the repository; they are passed in explicitly as
  sample/builder functions bundled in an `NxEnv` record, so every
  definition stays a pure, executable function of its inputs.
* The Erdős–Rényi generator is modelled from the spec (§4.3): each
  ordered pair (i, j), i ≠ j, is an edge exactly when its uniform
  draw u (i, j) falls below p.
* The Brian2 integration loop (net.run with StateMonitor/SpikeMonitor)
  is modelled from the spec (§4.5) as an explicit time-stepped loop.
-/

/-- A simulation configuration: the parameter dictionary handed to
`run_simulation` in src/simulator.py (floats as ℚ, ints as ℕ/ℤ). -/
structure Config where
  neuron_model : String
  num_neurons : ℕ
  sim_time : ℚ
  input_current : ℚ
  current_start : ℚ
  current_duration : ℚ
  noise_enabled : Bool
  noise_intensity : ℚ
  noise_method : String
  synapse_enabled : Bool
  syn_weight : ℚ
  syn_prob : ℚ
  topology_type : String
  topology_k : ℤ
  topology_k_reg : ℤ
  topology_p_rewire : ℚ
  topology_m : ℕ
  topology_n_modules : ℕ
  topology_p_intra : ℚ
  topology_p_inter : ℚ
  threshold : ℚ
  reset : ℚ

/-- The form defaults of the index route in src/app.py. -/
def defaultConfig : Config :=
  { neuron_model := "lif", num_neurons := 5, sim_time := 100, input_current := 6/5
  , current_start := 0, current_duration := 100, noise_enabled := false
  , noise_intensity := 1/5, noise_method := "additive", synapse_enabled := false
  , syn_weight := 1/5, syn_prob := 1/5, topology_type := "random", topology_k := 2
  , topology_k_reg := 2, topology_p_rewire := 1/10, topology_m := 2
  , topology_n_modules := 4, topology_p_intra := 1/5, topology_p_inter := 1/100
  , threshold := 1, reset := 0 }

/-- Brian2's `defaultclock.dt` is 0.1 ms, so `dt = float(defaultclock.dt/ms)`
in src/simulator.py line 148 is 0.1. -/
def defaultDt : ℚ := 1/10

/-- Python's `int(x)` conversion: truncation toward zero. -/
def pyInt (x : ℚ) : ℤ := if 0 ≤ x then ⌊x⌋ else ⌈x⌉

/-- `len(np.arange(0, sim_time, dt))`: the number of grid points of the
time array built in src/simulator.py line 149 (the ceiling of sim_time/dt
for dt > 0). -/
def timeSteps (simTime dt : ℚ) : ℕ := (⌈simTime / dt⌉ : ℤ).toNat

/-- `start_idx = max(0, int(current_start / dt))` (src/simulator.py line 153). -/
def startIdx (cfg : Config) (dt : ℚ) : ℤ := max 0 (pyInt (cfg.current_start / dt))

/-- `end_idx = min(len(time_array), int((current_start + current_duration) / dt))`
(src/simulator.py line 154). -/
def endIdx (cfg : Config) (dt : ℚ) : ℤ :=
  min (timeSteps cfg.sim_time dt) (pyInt ((cfg.current_start + cfg.current_duration) / dt))

/-- The stimulus matrix before noise: cell (n, t) of `I_array` after the fill
loop of src/simulator.py lines 150-158.  Each neuron n receives
`input_current + 0.05 * n` on the slice `[start_idx, end_idx)`, zero elsewhere. -/
def baseStim (cfg : Config) (dt : ℚ) (n t : ℕ) : ℚ :=
  if startIdx cfg dt ≤ (t : ℤ) ∧ (t : ℤ) < endIdx cfg dt then
    cfg.input_current + 0.05 * n
  else 0

/-- Cell (n, t) of `I_array` after the noise block of src/simulator.py
lines 160-166.  `randn` stands for the matrix of independent standard-normal
samples produced by `np.random.randn(num_neurons, len(time_array))`. -/
def stimArray (cfg : Config) (dt : ℚ) (randn : ℕ → ℕ → ℚ) (n t : ℕ) : ℚ :=
  let base := baseStim cfg dt n t
  if cfg.noise_enabled then
    let noise := cfg.noise_intensity * randn n t
    if cfg.noise_method = "additive" then base + noise
    else if cfg.noise_method = "multiplicative" then base * (1 + noise)
    else base
  else base

/-- Modelled from the spec: `nx.erdos_renyi_graph(N, p, directed=True)`
(src/topology.py line 13) is external library code; per spec §4.3 the
random topology includes each ordered pair (i, j) with i ≠ j independently
with probability p.  `u` is the table of uniform [0,1) draws; edge (i, j)
is present exactly when `u (i, j) < p`. -/
def erdosRenyiEdges (N : ℕ) (p : ℚ) (u : ℕ × ℕ → ℚ) : Finset (ℕ × ℕ) :=
  (Finset.range N ×ˢ Finset.range N).filter (fun e => e.1 ≠ e.2 ∧ u e < p)

/-- A Brian2 `Synapses` object as created in src/topology.py: the
`on_pre` target variable, the uniform weight, the 1 ms delay, the
connected edge set, and the `active` flag. -/
structure SynSpec where
  onPreTarget : String
  weight : ℚ
  delayMs : ℚ
  edges : Finset (ℕ × ℕ)
  active : Bool
deriving DecidableEq

/-- The common synapse construction of every creator in src/topology.py:
`on_pre` is `v_post += weight` when the neurons expose `v`, else
`I_post += weight*pA`; `delay=1*ms`; `syn.connect` on the graph's edges,
or `syn.active = False` when the edge list is empty. -/
def mkSyn (hasV : Bool) (weight : ℚ) (edges : Finset (ℕ × ℕ)) : SynSpec :=
  { onPreTarget := if hasV then "v" else "I"
  , weight := weight
  , delayMs := 1
  , edges := edges
  , active := decide edges.Nonempty }

/-- `create_random_connections` (src/topology.py lines 10-31), returning
the synapses and the generated graph's edge set. -/
def create_random_connections (N : ℕ) (hasV : Bool) (weight p : ℚ)
    (u : ℕ × ℕ → ℚ) : SynSpec × Finset (ℕ × ℕ) :=
  let G := erdosRenyiEdges N p u
  (mkSyn hasV weight G, G)

/-- The parameter adjustment of `create_small_world_connections`
(src/topology.py lines 36-38) and `create_regular_lattice` (lines 89-94):
`k = max(2, int(k))`, then `k += 1` if `k` is odd. -/
def swAdjustK (k : ℤ) : ℤ :=
  let k2 := max 2 k
  if k2 % 2 ≠ 0 then k2 + 1 else k2

/-- `create_small_world_connections` (src/topology.py lines 33-58).
`ws` stands for the external `nx.watts_strogatz_graph` builder. -/
def create_small_world_connections (ws : ℕ → ℤ → ℚ → Finset (ℕ × ℕ))
    (N : ℕ) (hasV : Bool) (weight : ℚ) (k : ℤ) (p_rewire : ℚ) :
    SynSpec × Finset (ℕ × ℕ) :=
  let G := ws N (swAdjustK k) p_rewire
  (mkSyn hasV weight G, G)

/-- The parameter adjustment of `create_scale_free_connections`
(src/topology.py line 63): `m = max(1, min(int(m), N//2))`. -/
def sfAdjustM (m N : ℕ) : ℕ := max 1 (min m (N / 2))

/-- `create_scale_free_connections` (src/topology.py lines 60-84).
`ba` stands for the external `nx.barabasi_albert_graph` builder. -/
def create_scale_free_connections (ba : ℕ → ℕ → Finset (ℕ × ℕ))
    (N : ℕ) (hasV : Bool) (weight : ℚ) (m : ℕ) :
    SynSpec × Finset (ℕ × ℕ) :=
  let G := ba N (sfAdjustM m N)
  (mkSyn hasV weight G, G)

/-- The offset list `[j for j in range(1, k//2 + 1)]` of
`create_regular_lattice` (src/topology.py line 98). -/
def circulantOffsets (k : ℤ) : List ℕ := (List.range (k.toNat / 2)).map (· + 1)

/-- `nx.circulant_graph(N, offsets)`: node i is adjacent to (i + j) % N for
each offset j; the undirected edge set is enumerated once per pair. -/
def circulantEdges (N : ℕ) (ks : List ℕ) : Finset (ℕ × ℕ) :=
  (Finset.range N ×ˢ ks.toFinset).image (fun q => (q.1, (q.1 + q.2) % N))

/-- `create_regular_lattice` (src/topology.py lines 87-116): the same
`max(2, ·)`-and-make-even adjustment as the small-world creator, then a
circulant ring over the adjusted k. -/
def create_regular_lattice (N : ℕ) (hasV : Bool) (weight : ℚ) (k : ℤ) :
    SynSpec × Finset (ℕ × ℕ) :=
  let G := circulantEdges N (circulantOffsets (swAdjustK k))
  (mkSyn hasV weight G, G)

/-- The parameter adjustment of `create_modular_connections`
(src/topology.py line 122): `n_modules = max(2, min(int(n_modules), N//2))`. -/
def modAdjustN (n N : ℕ) : ℕ := max 2 (min n (N / 2))

/-- The module sizes of `create_modular_connections` (src/topology.py
lines 125-127): N // n_modules per module, remainder spread over the first
modules. -/
def moduleSizes (N nm : ℕ) : List ℕ :=
  (List.range nm).map (fun i => N / nm + if i < N % nm then 1 else 0)

/-- `create_modular_connections` (src/topology.py lines 119-154).
`sbm` stands for the external `nx.stochastic_block_model` builder, taking
the block sizes and the diagonal/off-diagonal probabilities of `p_matrix`. -/
def create_modular_connections (sbm : List ℕ → ℚ → ℚ → Finset (ℕ × ℕ))
    (N : ℕ) (hasV : Bool) (weight : ℚ) (n_modules : ℕ) (p_intra p_inter : ℚ) :
    SynSpec × Finset (ℕ × ℕ) :=
  let nm := modAdjustN n_modules N
  let G := sbm (moduleSizes N nm) p_intra p_inter
  (mkSyn hasV weight G, G)

/-- The ambient random state and external networkx builders consumed by a
run: `randn` is the standard-normal sample table of `np.random.randn`,
`uPair` the uniform draws behind `nx.erdos_renyi_graph`, and `ws`/`ba`/`sbm`
the remaining networkx generators.  The source exposes no seed for any of
these; they are global, unseeded library state. -/
structure NxEnv where
  randn : ℕ → ℕ → ℚ
  uPair : ℕ × ℕ → ℚ
  ws : ℕ → ℤ → ℚ → Finset (ℕ × ℕ)
  ba : ℕ → ℕ → Finset (ℕ × ℕ)
  sbm : List ℕ → ℚ → ℚ → Finset (ℕ × ℕ)

/-- The topology dispatch of `run_simulation` (src/simulator.py lines
194-209): five recognized topology_type strings, any other value falls
through to `create_random_connections`. -/
def topologyDispatch (cfg : Config) (hasV : Bool) (env : NxEnv) :
    SynSpec × Finset (ℕ × ℕ) :=
  if cfg.topology_type = "random" then
    create_random_connections cfg.num_neurons hasV cfg.syn_weight cfg.syn_prob env.uPair
  else if cfg.topology_type = "small_world" then
    create_small_world_connections env.ws cfg.num_neurons hasV cfg.syn_weight
      cfg.topology_k cfg.topology_p_rewire
  else if cfg.topology_type = "scale_free" then
    create_scale_free_connections env.ba cfg.num_neurons hasV cfg.syn_weight cfg.topology_m
  else if cfg.topology_type = "regular" then
    create_regular_lattice cfg.num_neurons hasV cfg.syn_weight cfg.topology_k_reg
  else if cfg.topology_type = "modular" then
    create_modular_connections env.sbm cfg.num_neurons hasV cfg.syn_weight
      cfg.topology_n_modules cfg.topology_p_intra cfg.topology_p_inter
  else
    create_random_connections cfg.num_neurons hasV cfg.syn_weight cfg.syn_prob env.uPair

/-- The synaptic delay expressed in integer time steps (spec §4.4: the
fixed 1 ms delay as a number of steps of size dt). -/
def delaySteps (delayMs dt : ℚ) : ℤ := pyInt (delayMs / dt)

/-- Modelled from the spec: the delayed-event delivery table of §4.4,
implemented inside Brian2 by `Synapses(..., on_pre=..., delay=1*ms)`.
For every recorded spike (t, i) and every edge (i, j), a perturbation of
unit j is delivered at step t + d. -/
def deliveries (s : SynSpec) (d : ℕ) (spikes : Finset (ℕ × ℕ)) :
    Finset (ℕ × ℕ) :=
  ((spikes ×ˢ s.edges).filter (fun q => q.2.1 = q.1.2)).image
    (fun q => (q.1.1 + d, q.2.2))

/-- The dictionary keys `run_simulation` reads from its `params` argument
(src/simulator.py, every `params[...]` and `params.get(...)` access).
There is no seed of any kind among them. -/
def runSimulationParamKeys : List String :=
  [ "neuron_model", "num_neurons", "sim_time", "input_current"
  , "current_start", "current_duration", "noise_enabled", "noise_intensity"
  , "noise_method", "synapse_enabled", "syn_weight", "syn_prob"
  , "threshold", "reset"
  , "izh_a", "izh_b", "izh_c", "izh_d"
  , "adex_a", "adex_b", "adex_deltaT", "adex_tau_w"
  , "custom_eqs", "custom_threshold", "custom_reset"
  , "topology_type", "topology_k", "topology_k_reg", "topology_p_rewire"
  , "topology_m", "topology_n_modules", "topology_p_intra", "topology_p_inter" ]

/-- The parts of the result dictionary of `run_simulation`
(src/simulator.py lines 230-235) that this development models:
the synapses object `S`, the returned `network_graph`, and the stimulus
matrix `I_array` driving the neuron group.  The numerical integration
that Brian2's `net.run` performs on top of these is modelled separately
by `run_loop` below. -/
structure RunResult where
  S : Option SynSpec
  network_graph : Option (Finset (ℕ × ℕ))
  stim : List (List ℚ)
deriving DecidableEq

/-- The `I_array` matrix materialized as `num_neurons` rows of
`len(time_array)` entries (src/simulator.py lines 150-166). -/
def stimRows (cfg : Config) (env : NxEnv) : List (List ℚ) :=
  (List.range cfg.num_neurons).map (fun n =>
    (List.range (timeSteps cfg.sim_time defaultDt)).map (fun t =>
      stimArray cfg defaultDt env.randn n t))

/-- `run_simulation` (src/simulator.py lines 16-235): builds the stimulus,
creates synapses only when `synapse_enabled and num_neurons > 1` (lines
176-209), and returns `network_graph` only under the same condition
(line 234).  `hasV` models `hasattr(neurons[0], 'v')`. -/
def run_simulation (cfg : Config) (hasV : Bool) (env : NxEnv) : RunResult :=
  let syn := if cfg.synapse_enabled = true ∧ 1 < cfg.num_neurons then
      some (topologyDispatch cfg hasV env)
    else none
  { S := syn.map (fun q => q.1)
  , network_graph := syn.map (fun q => q.2)
  , stim := stimRows cfg env }

/-- The validation messages of `validate_inputs` (src/app.py lines 60-129),
verbatim. -/
def msgNeurons : String := "Number of neurons must be between 1 and 100."

def msgSimTime : String := "Simulation time must be positive and less than 10000 ms."

def msgCurrentNonneg : String := "Current start and duration must be non-negative."

def msgStartAfterEnd : String := "Current start cannot be after simulation end."

def msgInterval : String := "Current injection interval exceeds simulation time."

def msgThresholdReset : String := "Threshold should be greater than reset value."

def msgSynProb : String := "Connection probability must be between 0 and 1."

def msgSynWeight : String := "Synaptic weight should be reasonable (between -10 and 10)."

def smallWorldKMsg : String := "Small world k parameter must be an even number >= 2."

def smallWorldKBigMsg (k nn : ℤ) : String :=
  "Small world k (" ++ toString k ++ ") must be less than number of neurons ("
    ++ toString nn ++ ")."

def msgRewire : String := "Rewiring probability must be between 0 and 1."

def regularKMsg : String := "Regular lattice k parameter must be an even number >= 2."

def regularKBigMsg (k nn : ℤ) : String :=
  "Regular lattice k (" ++ toString k ++ ") must be less than number of neurons ("
    ++ toString nn ++ ")."

def scaleFreeMMsg (nn : ℤ) : String :=
  "Scale-free m parameter must be between 1 and " ++ toString (Int.fdiv nn 2) ++ "."

def modularNMsg (nn : ℤ) : String :=
  "Number of modules must be between 2 and " ++ toString (Int.fdiv nn 2) ++ "."

def msgPIntra : String := "Intra-module probability must be between 0 and 1."

def msgPInter : String := "Inter-module probability must be between 0 and 1."

def modularWarnMsg : String :=
  "Intra-module probability should typically be higher than inter-module probability."

/-- The keyword topology parameters of `validate_inputs` with the defaults
used by its `.get(...)` calls. -/
structure TopologyParams where
  syn_prob : ℚ
  syn_weight : ℚ
  topology_k : ℤ
  topology_k_reg : ℤ
  topology_p_rewire : ℚ
  topology_m : ℤ
  topology_n_modules : ℤ
  topology_p_intra : ℚ
  topology_p_inter : ℚ

/-- Python truthiness of the `topology_type` argument in
`if synapse_enabled and topology_type:` (src/app.py line 82):
`None` and the empty string are falsy. -/
def truthyStr : Option String → Bool
  | none => false
  | some s => !(s == "")

/-- `validate_inputs` (src/app.py lines 60-129): returns the list of error
messages, in source order.  Every failed check appends to the same single
list; there is no separate warning channel. -/
def validate_inputs (threshold reset sim_time input_current : ℚ)
    (num_neurons : ℤ) (current_start current_duration : ℚ)
    (topology_type : Option String) (synapse_enabled : Bool)
    (tp : TopologyParams) : List String :=
  (if num_neurons < 1 ∨ 100 < num_neurons then [msgNeurons] else []) ++
  (if sim_time ≤ 0 ∨ 10000 < sim_time then [msgSimTime] else []) ++
  (if current_start < 0 ∨ current_duration < 0 then [msgCurrentNonneg] else []) ++
  (if sim_time < current_start then [msgStartAfterEnd] else []) ++
  (if sim_time < current_start + current_duration then [msgInterval] else []) ++
  (if threshold ≤ reset then [msgThresholdReset] else []) ++
  (if synapse_enabled = true ∧ truthyStr topology_type = true then
    (if tp.syn_prob < 0 ∨ 1 < tp.syn_prob then [msgSynProb] else []) ++
    (if 10 < |tp.syn_weight| then [msgSynWeight] else []) ++
    (if topology_type = some "small_world" then
      (if tp.topology_k % 2 ≠ 0 ∨ tp.topology_k < 2 then [smallWorldKMsg] else []) ++
      (if num_neurons ≤ tp.topology_k then
        [smallWorldKBigMsg tp.topology_k num_neurons] else []) ++
      (if tp.topology_p_rewire < 0 ∨ 1 < tp.topology_p_rewire then [msgRewire] else [])
    else if topology_type = some "regular" then
      (if tp.topology_k_reg % 2 ≠ 0 ∨ tp.topology_k_reg < 2 then [regularKMsg] else []) ++
      (if num_neurons ≤ tp.topology_k_reg then
        [regularKBigMsg tp.topology_k_reg num_neurons] else [])
    else if topology_type = some "scale_free" then
      (if tp.topology_m < 1 ∨ Int.fdiv num_neurons 2 ≤ tp.topology_m then
        [scaleFreeMMsg num_neurons] else [])
    else if topology_type = some "modular" then
      (if tp.topology_n_modules < 2 ∨ Int.fdiv num_neurons 2 < tp.topology_n_modules then
        [modularNMsg num_neurons] else []) ++
      (if tp.topology_p_intra < 0 ∨ 1 < tp.topology_p_intra then [msgPIntra] else []) ++
      (if tp.topology_p_inter < 0 ∨ 1 < tp.topology_p_inter then [msgPInter] else []) ++
      (if tp.topology_p_intra < tp.topology_p_inter then [modularWarnMsg] else [])
    else [])
  else [])

/-- Python's `not s.strip()`: true exactly when the string is empty or
all whitespace (the custom-model field check of src/app.py line 253). -/
def isBlank (s : String) : Bool := s.data.all Char.isWhitespace

def customRequiredMsg : String :=
  "Custom model: equations, threshold, and reset are required."

/-- The custom-model completeness check of the index route
(src/app.py lines 252-254): one message appended when any of the three
text fields is blank. -/
def customModelErrors (neuron_model custom_eqs custom_threshold custom_reset :
    String) : List String :=
  if neuron_model = "custom" ∧
      (isBlank custom_eqs = true ∨ isBlank custom_threshold = true ∨
        isBlank custom_reset = true) then
    [customRequiredMsg]
  else []

/-- The control flow of the index route after validation (src/app.py lines
255-340): with a nonempty error list the form is re-rendered and no
simulation runs; otherwise `run_simulation` is invoked. -/
inductive IndexOutcome where
  | blocked : List String → IndexOutcome
  | ran : RunResult → IndexOutcome
deriving DecidableEq

def indexDecision (errs : List String) (cfg : Config) (hasV : Bool)
    (env : NxEnv) : IndexOutcome :=
  if errs = [] then .ran (run_simulation cfg hasV env) else .blocked errs

/-- Modelled from the spec: the Integrator/Scheduler loop of §4.5,
implemented inside the external Brian2 library by `net.run(sim_time*ms)`
together with `StateMonitor`/`SpikeMonitor` (src/simulator.py lines
212-224).  One invocation of `stepFn t s` performs sub-steps 1-4 of §4.5
(derivative evaluation, integration update, threshold/reset, synaptic
delivery) for step t on per-unit state vector s, returning the next state
and the list of units that fired; the loop appends the step's state to
the StateTrace and the fired units, tagged with the step, to the
SpikeLog. -/
def runLoopFrom (stepFn : ℕ → List ℚ → List ℚ × List ℕ) :
    List ℚ → ℕ → ℕ → List (List ℚ) × List (ℕ × ℕ)
  | _, _, 0 => ([], [])
  | s, t, k + 1 =>
    let r := stepFn t s
    let rest := runLoopFrom stepFn r.1 (t + 1) k
    (r.1 :: rest.1, r.2.map (fun u => (t, u)) ++ rest.2)

/-- The full run of §4.5: iterations t = 0..steps, i.e. steps+1 of them. -/
def run_loop (stepFn : ℕ → List ℚ → List ℚ × List ℕ) (s0 : List ℚ)
    (steps : ℕ) : List (List ℚ) × List (ℕ × ℕ) :=
  runLoopFrom stepFn s0 0 (steps + 1)

/-- The error list assembled by the index route before deciding whether to
run (src/app.py lines 246-254): the `validate_inputs` output followed by
the custom-model completeness check. -/
def indexErrors (thr rst st ic : ℚ) (nn : ℤ) (cs cd : ℚ)
    (tt : Option String) (se : Bool) (tp : TopologyParams)
    (model eqs cthr crst : String) : List String :=
  validate_inputs thr rst st ic nn cs cd tt se tp
    ++ customModelErrors model eqs cthr crst

/-- A concrete ambient environment (all samples zero, all external graphs
empty), used to instantiate theorems at closed inputs. -/
def zeroEnv : NxEnv :=
  { randn := fun _ _ => 0, uPair := fun _ => 0, ws := fun _ _ _ => ∅
  , ba := fun _ _ => ∅, sbm := fun _ _ _ => ∅ }

/-- A second ambient environment whose normal samples are all 1. -/
def oneEnv : NxEnv := { zeroEnv with randn := fun _ _ => 1 }

/-- A probe graph builder that records the k it was called with inside the
returned edge set, standing in for `nx.watts_strogatz_graph`. -/
def probeWS : ℕ → ℤ → ℚ → Finset (ℕ × ℕ) := fun _ k _ => {(0, k.toNat)}

/-- Concrete configurations and parameter records used to instantiate the
theorems below at closed inputs. -/
def cfgSingle : Config :=
  { defaultConfig with synapse_enabled := true, num_neurons := 1 }

def cfgRing : Config :=
  { defaultConfig with synapse_enabled := true, topology_type := "ring" }

def cfgNoise : Config :=
  { defaultConfig with noise_enabled := true, num_neurons := 1, sim_time := 1/10 }

def cfgWindow : Config :=
  { defaultConfig with sim_time := 10, current_start := 2, current_duration := 3 }

def cfgMisaligned : Config :=
  { defaultConfig with sim_time := 1, current_start := 1/4, current_duration := 1/2 }

def cfgTrace : Config :=
  { defaultConfig with sim_time := 3/10, num_neurons := 1 }

def traceStep : ℕ → List ℚ → List ℚ × List ℕ := fun _ s => (s, [0])

def tpOddK : TopologyParams :=
  { syn_prob := 1/5, syn_weight := 1/5, topology_k := 3, topology_k_reg := 2
  , topology_p_rewire := 1/10, topology_m := 2, topology_n_modules := 4
  , topology_p_intra := 1/5, topology_p_inter := 1/100 }

def tpSwap : TopologyParams :=
  { syn_prob := 1/5, syn_weight := 1/5, topology_k := 2, topology_k_reg := 2
  , topology_p_rewire := 1/10, topology_m := 2, topology_n_modules := 2
  , topology_p_intra := 1/100, topology_p_inter := 4/5 }

example : baseStim defaultConfig 1 2 3 = 6/5 + 0.05 * 2 := by
  norm_num [baseStim, startIdx, endIdx, pyInt, timeSteps, defaultConfig]

example : baseStim { defaultConfig with current_start := 5 } 1 2 3 = 0 := by
  norm_num [baseStim, startIdx, endIdx, pyInt, timeSteps, defaultConfig]

example : swAdjustK 3 = 4 := by decide

example : sfAdjustM 100 10 = 5 := by decide

example : modAdjustN 1 10 = 2 := by decide

example : moduleSizes 10 4 = [3, 3, 2, 2] := by decide

example : isBlank "" = true := by decide

example : isBlank "  " = true := by decide

example : isBlank "dv/dt = -v : 1" = false := by decide

lemma runLoopFrom_trace_length (stepFn : ℕ → List ℚ → List ℚ × List ℕ) :
    ∀ (k : ℕ) (s : List ℚ) (t : ℕ), (runLoopFrom stepFn s t k).1.length = k := by
  intro k
  induction k with
  | zero => intro s t; rfl
  | succ k ih =>
    intro s t
    simp [runLoopFrom, ih]

lemma runLoopFrom_snap_length (stepFn : ℕ → List ℚ → List ℚ × List ℕ) (N : ℕ)
    (hpres : ∀ t s, ((stepFn t s).1).length = s.length) :
    ∀ (k : ℕ) (s : List ℚ) (t : ℕ), s.length = N →
      ∀ snap ∈ (runLoopFrom stepFn s t k).1, snap.length = N := by
  intro k
  induction k with
  | zero => intro s t _ snap hsnap; simp [runLoopFrom] at hsnap
  | succ k ih =>
    intro s t hs snap hsnap
    simp only [runLoopFrom, List.mem_cons] at hsnap
    rcases hsnap with h | h
    · rw [h, hpres, hs]
    · exact ih (stepFn t s).1 (t + 1) ((hpres t s).trans hs) snap h

lemma runLoopFrom_log_lb (stepFn : ℕ → List ℚ → List ℚ × List ℕ) :
    ∀ (k : ℕ) (s : List ℚ) (t : ℕ),
      ∀ e ∈ (runLoopFrom stepFn s t k).2, t ≤ e.1 := by
  intro k
  induction k with
  | zero => intro s t e he; simp [runLoopFrom] at he
  | succ k ih =>
    intro s t e he
    simp only [runLoopFrom, List.mem_append, List.mem_map] at he
    rcases he with ⟨u, _, rfl⟩ | h
    · exact le_refl t
    · exact (Nat.le_succ t).trans (ih (stepFn t s).1 (t + 1) e h)

lemma runLoopFrom_log_sorted (stepFn : ℕ → List ℚ → List ℚ × List ℕ) :
    ∀ (k : ℕ) (s : List ℚ) (t : ℕ),
      (runLoopFrom stepFn s t k).2.Pairwise (fun e f => e.1 ≤ f.1) := by
  intro k
  induction k with
  | zero => intro s t; simp [runLoopFrom]
  | succ k ih =>
    intro s t
    simp only [runLoopFrom]
    refine List.pairwise_append.mpr ⟨?_, ih (stepFn t s).1 (t + 1), ?_⟩
    · refine List.pairwise_map.mpr ?_
      exact List.pairwise_of_forall (fun _ _ => le_refl t)
    · intro e he f hf
      simp only [List.mem_map] at he
      rcases he with ⟨u, _, rfl⟩
      exact (Nat.le_succ t).trans (runLoopFrom_log_lb stepFn k _ (t + 1) f hf)

/-- C9: with synapses enabled but a single neuron, `run_simulation` creates
no synapse object, returns `network_graph = None`, and behaves exactly as
if synapses were disabled; no error is raised (the function is total). -/
theorem C9_single_neuron (cfg : Config) (hasV : Bool) (env : NxEnv)
    (hs : cfg.synapse_enabled = true) (h1 : cfg.num_neurons = 1) :
    (run_simulation cfg hasV env).S = none
    ∧ (run_simulation cfg hasV env).network_graph = none
    ∧ run_simulation cfg hasV env
        = run_simulation { cfg with synapse_enabled := false } hasV env := by
  have hlt : ¬ (1 : ℕ) < cfg.num_neurons := by rw [h1]; exact lt_irrefl 1
  refine ⟨?_, ?_, ?_⟩ <;> simp [run_simulation, hlt, stimRows]
  exact fun a _ b _ => rfl

theorem C9_single_neuron_witness :
    (run_simulation cfgSingle true zeroEnv).S = none
    ∧ (run_simulation cfgSingle true zeroEnv).network_graph = none
    ∧ run_simulation cfgSingle true zeroEnv
        = run_simulation { cfgSingle with synapse_enabled := false } true zeroEnv :=
  C9_single_neuron cfgSingle true zeroEnv rfl rfl

/-- C10: a `topology_type` string that is none of the five recognized kinds
does not fail: the dispatch of src/simulator.py lines 194-209 falls through
to `create_random_connections` with the configured probability. -/
theorem C10_unknown_topology_falls_back (cfg : Config) (hasV : Bool)
    (env : NxEnv)
    (h : cfg.topology_type ∉
      ["random", "small_world", "scale_free", "regular", "modular"]) :
    topologyDispatch cfg hasV env
      = create_random_connections cfg.num_neurons hasV cfg.syn_weight
          cfg.syn_prob env.uPair := by
  simp only [List.mem_cons, List.not_mem_nil, or_false, not_or] at h
  obtain ⟨h1, h2, h3, h4, h5⟩ := h
  simp [topologyDispatch, h1, h2, h3, h4, h5]

theorem C10_unknown_topology_falls_back_witness :
    topologyDispatch cfgRing true zeroEnv
      = create_random_connections cfgRing.num_neurons true cfgRing.syn_weight
          cfgRing.syn_prob zeroEnv.uPair :=
  C10_unknown_topology_falls_back cfgRing true zeroEnv (by decide)

/-- C6 counterexample: `run_simulation` reads no seed parameter of any kind
(its full key list is `runSimulationParamKeys`), and with noise enabled its
output depends on the ambient, unseeded RNG state: two runs of the same
Configuration under different ambient normal samples give different
stimulus matrices.  So the claim that the core run takes an explicit seed
and is reproducible per seed fails on this code. -/
theorem C6_cex :
    "seed" ∉ runSimulationParamKeys
    ∧ (run_simulation cfgNoise true zeroEnv).stim
        ≠ (run_simulation cfgNoise true oneEnv).stim := by
  constructor
  · decide
  · norm_num [run_simulation, stimRows, stimArray, baseStim, startIdx, endIdx,
      pyInt, timeSteps, cfgNoise, defaultConfig, defaultDt, zeroEnv, oneEnv]

/-- C6 amended: `run_simulation` accepts no seed; determinism holds exactly
when no randomness is consumed: with noise disabled and synapses disabled
the result is a function of the Configuration alone, identical across any
two ambient random states. -/
theorem C6_deterministic_without_randomness (cfg : Config) (hasV : Bool)
    (envA envB : NxEnv) (hn : cfg.noise_enabled = false)
    (hs : cfg.synapse_enabled = false) :
    run_simulation cfg hasV envA = run_simulation cfg hasV envB := by
  simp [run_simulation, hs, stimRows, stimArray, hn]

theorem C6_deterministic_without_randomness_witness :
    run_simulation defaultConfig true zeroEnv
      = run_simulation defaultConfig true oneEnv :=
  C6_deterministic_without_randomness defaultConfig true zeroEnv oneEnv rfl rfl

/-- C3: for every edge (i, j) and every step t at which unit i fires, the
coupling built by src/topology.py delivers a perturbation of unit j at step
t + d where d is the 1 ms delay in steps (10 steps at the 0.1 ms default
clock); the post-synaptic variable is `v` for voltage-carrying models and
`I` otherwise; an empty edge set yields an inactive synapse object and an
empty delivery table, not an error. -/
theorem C3_delayed_delivery (hasV : Bool) (w : ℚ) (E spikes : Finset (ℕ × ℕ))
    (d t i j : ℕ) (he : (i, j) ∈ E) (hs : (t, i) ∈ spikes) :
    (t + d, j) ∈ deliveries (mkSyn hasV w E) d spikes
    ∧ (mkSyn hasV w E).onPreTarget = (if hasV then "v" else "I")
    ∧ (mkSyn hasV w E).delayMs = 1
    ∧ delaySteps 1 defaultDt = 10
    ∧ deliveries (mkSyn hasV w ∅) d spikes = ∅
    ∧ (mkSyn hasV w ∅).active = false := by
  refine ⟨?_, rfl, rfl, ?_, ?_, ?_⟩
  · exact Finset.mem_image.mpr ⟨((t, i), (i, j)),
      Finset.mem_filter.mpr ⟨Finset.mem_product.mpr ⟨hs, he⟩, rfl⟩, rfl⟩
  · norm_num [delaySteps, pyInt, defaultDt]
  · simp [deliveries, mkSyn]
  · simp [mkSyn]

theorem C3_delayed_delivery_witness :
    ((2 + 10 : ℕ), (1 : ℕ)) ∈
      deliveries (mkSyn true (1/5) {(0, 1)}) 10 {(2, 0)}
    ∧ (mkSyn true (1/5) ({(0, 1)} : Finset (ℕ × ℕ))).onPreTarget
        = (if true then "v" else "I")
    ∧ (mkSyn true (1/5) ({(0, 1)} : Finset (ℕ × ℕ))).delayMs = 1
    ∧ delaySteps 1 defaultDt = 10
    ∧ deliveries (mkSyn true (1/5) ∅) 10 ({(2, 0)} : Finset (ℕ × ℕ)) = ∅
    ∧ (mkSyn true (1/5) (∅ : Finset (ℕ × ℕ))).active = false :=
  C3_delayed_delivery true (1/5) {(0, 1)} {(2, 0)} 10 2 0 1
    (by decide) (by decide)

/-- C5 counterexample: the generators of src/topology.py never raise a
TopologyError; invalid parameters are silently adjusted inside the
generator itself.  With the invalid odd k = 3, `create_small_world_connections`
completes normally and builds the graph with k silently bumped to 4; the
scale-free m and the modular n_modules are likewise clamped
(m = 100 with N = 10 becomes 5, n_modules = 1 becomes 2). -/
theorem C5_cex :
    (create_small_world_connections probeWS 10 true (1/5) 3 (1/10)).2 = {(0, 4)}
    ∧ swAdjustK 3 = 4 ∧ sfAdjustM 100 10 = 5 ∧ modAdjustN 1 10 = 2 := by
  refine ⟨?_, by decide, by decide, by decide⟩
  show probeWS 10 (swAdjustK 3) (1/10) = {(0, 4)}
  decide

lemma swAdjustK_even_ge_two (k : ℤ) : 2 ≤ swAdjustK k ∧ swAdjustK k % 2 = 0 := by
  have h2 : (2 : ℤ) ≤ max 2 k := le_max_left 2 k
  simp only [swAdjustK]
  generalize hm : max 2 k = k2 at h2 ⊢
  split <;> omega

/-- C5 amended: out-of-range topology parameters are flagged (as error
strings) by the caller-side `validate_inputs`, not by the generators:
each generator silently adjusts its parameter to a valid value
(k to an even number that is at least 2, m into [1, N//2], n_modules into
[2, N//2]) and builds the graph with the adjusted value, raising nothing. -/
theorem C5_silent_adjustment (N : ℕ) (hasV : Bool) (w pr pintra pinter : ℚ)
    (k kreg : ℤ) (m nmods : ℕ)
    (ws : ℕ → ℤ → ℚ → Finset (ℕ × ℕ)) (ba : ℕ → ℕ → Finset (ℕ × ℕ))
    (sbm : List ℕ → ℚ → ℚ → Finset (ℕ × ℕ))
    (thr rst st ic cs cd : ℚ) (nn : ℤ) (tp : TopologyParams)
    (hk : tp.topology_k % 2 ≠ 0 ∨ tp.topology_k < 2) :
    (create_small_world_connections ws N hasV w k pr).2 = ws N (swAdjustK k) pr
    ∧ 2 ≤ swAdjustK k ∧ swAdjustK k % 2 = 0
    ∧ (create_scale_free_connections ba N hasV w m).2 = ba N (sfAdjustM m N)
    ∧ 1 ≤ sfAdjustM m N ∧ sfAdjustM m N ≤ max 1 (N / 2)
    ∧ (create_regular_lattice N hasV w kreg).2
        = circulantEdges N (circulantOffsets (swAdjustK kreg))
    ∧ (create_modular_connections sbm N hasV w nmods pintra pinter).2
        = sbm (moduleSizes N (modAdjustN nmods N)) pintra pinter
    ∧ 2 ≤ modAdjustN nmods N
    ∧ smallWorldKMsg ∈ validate_inputs thr rst st ic nn cs cd
        (some "small_world") true tp := by
  refine ⟨rfl, (swAdjustK_even_ge_two k).1, (swAdjustK_even_ge_two k).2, rfl,
    le_max_left 1 _, max_le_max (le_refl 1) (min_le_right m (N / 2)), rfl, rfl,
    le_max_left 2 _, ?_⟩
  have hk2 : tp.topology_k % 2 = 1 ∨ tp.topology_k < 2 := by omega
  simp [validate_inputs, truthyStr]
  exact Or.inr (Or.inr (Or.inr (Or.inr (Or.inr (Or.inr (Or.inr (Or.inr
    (Or.inl hk2))))))))

theorem C5_silent_adjustment_witness :
    (create_small_world_connections probeWS 10 true (1/5) 3 (1/10)).2
        = probeWS 10 (swAdjustK 3) (1/10)
    ∧ 2 ≤ swAdjustK 3 ∧ swAdjustK 3 % 2 = 0
    ∧ (create_scale_free_connections zeroEnv.ba 10 true (1/5) 100).2
        = zeroEnv.ba 10 (sfAdjustM 100 10)
    ∧ 1 ≤ sfAdjustM 100 10 ∧ sfAdjustM 100 10 ≤ max 1 (10 / 2)
    ∧ (create_regular_lattice 10 true (1/5) 3).2
        = circulantEdges 10 (circulantOffsets (swAdjustK 3))
    ∧ (create_modular_connections zeroEnv.sbm 10 true (1/5) 1 (1/5) (1/100)).2
        = zeroEnv.sbm (moduleSizes 10 (modAdjustN 1 10)) (1/5) (1/100)
    ∧ 2 ≤ modAdjustN 1 10
    ∧ smallWorldKMsg ∈ validate_inputs 1 0 100 (6/5) 10 0 100
        (some "small_world") true tpOddK :=
  C5_silent_adjustment 10 true (1/5) (1/10) (1/5) (1/100) 3 3 100 1
    probeWS zeroEnv.ba zeroEnv.sbm 1 0 100 (6/5) 0 100 10 tpOddK
    (by decide)

/-- C7: the random topology over N nodes (modelled from spec §4.3, standing
for `nx.erdos_renyi_graph(N, p, directed=True)`): p = 0 yields no edges,
p = 1 yields the complete directed graph minus self-loops with N(N-1)
edges, no self-loop is ever produced, and in general the ordered pair
(i, j), i ≠ j, is an edge exactly when its independent uniform draw falls
below p. -/
theorem C7_random_topology (N : ℕ) (p : ℚ) (u : ℕ × ℕ → ℚ)
    (hu : ∀ e, 0 ≤ u e ∧ u e < 1) :
    erdosRenyiEdges N 0 u = ∅
    ∧ (erdosRenyiEdges N 1 u).card = N * (N - 1)
    ∧ (∀ e ∈ erdosRenyiEdges N p u, e.1 ≠ e.2)
    ∧ (∀ i j, (i, j) ∈ erdosRenyiEdges N p u ↔
        i < N ∧ j < N ∧ i ≠ j ∧ u (i, j) < p) := by
  refine ⟨?_, ?_, ?_, ?_⟩
  · refine Finset.eq_empty_iff_forall_not_mem.mpr (fun e hmem => ?_)
    exact absurd (Finset.mem_filter.mp hmem).2.2 (not_lt.mpr (hu e).1)
  · have hfull : erdosRenyiEdges N 1 u = (Finset.range N).offDiag := by
      ext e
      simp [erdosRenyiEdges, Finset.mem_filter, Finset.mem_product,
        Finset.mem_offDiag, (hu e).2]
      tauto
    rw [hfull, Finset.offDiag_card, Finset.card_range]
    cases N with
    | zero => rfl
    | succ n => rw [Nat.succ_sub_one, Nat.mul_succ, Nat.add_sub_cancel]
  · exact fun e he => (Finset.mem_filter.mp he).2.1
  · intro i j
    simp [erdosRenyiEdges, Finset.mem_filter, Finset.mem_product,
      Finset.mem_range, and_assoc]

theorem C7_random_topology_witness :
    erdosRenyiEdges 2 0 (fun _ => 1/4) = ∅
    ∧ (erdosRenyiEdges 2 1 (fun _ => 1/4)).card = 2 * (2 - 1)
    ∧ (∀ e ∈ erdosRenyiEdges 2 (1/2) (fun _ => 1/4), e.1 ≠ e.2)
    ∧ (∀ i j, (i, j) ∈ erdosRenyiEdges 2 (1/2) (fun _ => 1/4) ↔
        i < 2 ∧ j < 2 ∧ i ≠ j ∧ (fun (_ : ℕ × ℕ) => (1/4 : ℚ)) (i, j) < 1/2) :=
  C7_random_topology 2 (1/2) (fun _ => 1/4)
    (fun _ => ⟨by norm_num, by norm_num⟩)

/-- C2 counterexample: the claimed per-time window formula fails on
non-grid-aligned windows, which validation accepts.  With current_start =
0.25 ms, current_duration = 0.5 ms and the 0.1 ms default clock, the code
floors the bounds to step indices `start_idx = int(2.5) = 2`,
`end_idx = int(7.5) = 7`: step t = 2 has time 0.2 ms, which lies outside
the claimed window [0.25, 0.75), yet the cell receives
`input_current + 0.05·n` — whereas the claim says it should be 0. -/
theorem C2_cex :
    baseStim cfgMisaligned defaultDt 0 2
      = cfgMisaligned.input_current + 0.05 * ((0 : ℕ) : ℚ)
    ∧ ¬ (cfgMisaligned.current_start ≤ ((2 : ℕ) : ℚ) * defaultDt)
    ∧ baseStim cfgMisaligned defaultDt 0 2
        ≠ (if cfgMisaligned.current_start ≤ ((2 : ℕ) : ℚ) * defaultDt ∧
              ((2 : ℕ) : ℚ) * defaultDt
                < cfgMisaligned.current_start + cfgMisaligned.current_duration
           then cfgMisaligned.input_current + 0.05 * ((0 : ℕ) : ℚ) else 0) := by
  norm_num [baseStim, startIdx, endIdx, pyInt, timeSteps, cfgMisaligned,
    defaultConfig, defaultDt]

/-- C2 amended: the stimulus cell (n, t) carries `input_current + 0.05·n`
on the step-index slice `[start_idx, end_idx)` whose bounds are the
window's edges floored to grid indices; for a window aligned to the dt
grid and contained in the simulated interval (current_start = a·dt,
current_duration = b·dt, a+b within the grid) this coincides with the
claimed form: the cell equals `input_current + 0.05·n` exactly when the
step's time lies in [current_start, current_start + current_duration),
and 0 otherwise.  With noise enabled, the additive method adds
`noise_intensity · randn n t` to the cell and the multiplicative method
multiplies the cell by `1 + noise_intensity · randn n t`, where `randn`
is the table of independent standard-normal samples. -/
theorem C2_stimulus (cfg : Config) (dt : ℚ) (a b : ℕ) (randn : ℕ → ℕ → ℚ)
    (n t : ℕ) (hdt : 0 < dt) (ha : cfg.current_start = a * dt)
    (hb : cfg.current_duration = b * dt)
    (hT : a + b ≤ timeSteps cfg.sim_time dt) :
    baseStim cfg dt n t
      = (if cfg.current_start ≤ (t : ℚ) * dt ∧
            (t : ℚ) * dt < cfg.current_start + cfg.current_duration then
          cfg.input_current + 0.05 * n else 0)
    ∧ (cfg.noise_enabled = true → cfg.noise_method = "additive" →
        stimArray cfg dt randn n t
          = baseStim cfg dt n t + cfg.noise_intensity * randn n t)
    ∧ (cfg.noise_enabled = true → cfg.noise_method = "multiplicative" →
        stimArray cfg dt randn n t
          = baseStim cfg dt n t * (1 + cfg.noise_intensity * randn n t))
    ∧ (cfg.noise_enabled = false →
        stimArray cfg dt randn n t = baseStim cfg dt n t) := by
  have hdt0 : dt ≠ 0 := ne_of_gt hdt
  have hsi : startIdx cfg dt = (a : ℤ) := by
    unfold startIdx pyInt
    rw [ha, mul_div_cancel_right₀ _ hdt0, if_pos (Nat.cast_nonneg a),
      Int.floor_natCast]
    exact max_eq_right (Int.natCast_nonneg a)
  have hei : endIdx cfg dt = ((a + b : ℕ) : ℤ) := by
    unfold endIdx pyInt
    rw [ha, hb, ← add_mul, mul_div_cancel_right₀ _ hdt0,
      show ((a : ℚ) + (b : ℚ)) = ((a + b : ℕ) : ℚ) by push_cast; ring,
      if_pos (Nat.cast_nonneg (a + b)), Int.floor_natCast]
    exact min_eq_right (Int.ofNat_le.mpr hT)
  refine ⟨?_, ?_, ?_, ?_⟩
  · unfold baseStim
    refine if_congr (and_congr ?_ ?_) rfl rfl
    · rw [hsi, ha, mul_le_mul_right hdt]
      exact (Nat.cast_le (α := ℤ)).trans (Nat.cast_le (α := ℚ)).symm
    · rw [hei, show cfg.current_start + cfg.current_duration
          = ((a + b : ℕ) : ℚ) * dt by rw [ha, hb]; push_cast; ring,
        mul_lt_mul_right hdt]
      exact (Nat.cast_lt (α := ℤ)).trans (Nat.cast_lt (α := ℚ)).symm
  · intro h1 h2; simp [stimArray, h1, h2]
  · intro h1 h2; simp [stimArray, h1, h2]
  · intro h1; simp [stimArray, h1]

theorem C2_stimulus_witness :
    baseStim cfgWindow 1 0 2
      = (if cfgWindow.current_start ≤ ((2 : ℕ) : ℚ) * 1 ∧
            ((2 : ℕ) : ℚ) * 1 < cfgWindow.current_start + cfgWindow.current_duration
         then cfgWindow.input_current + 0.05 * ((0 : ℕ) : ℚ) else 0)
    ∧ (cfgWindow.noise_enabled = true → cfgWindow.noise_method = "additive" →
        stimArray cfgWindow 1 (fun _ _ => 0) 0 2
          = baseStim cfgWindow 1 0 2 + cfgWindow.noise_intensity * 0)
    ∧ (cfgWindow.noise_enabled = true → cfgWindow.noise_method = "multiplicative" →
        stimArray cfgWindow 1 (fun _ _ => 0) 0 2
          = baseStim cfgWindow 1 0 2 * (1 + cfgWindow.noise_intensity * 0))
    ∧ (cfgWindow.noise_enabled = false →
        stimArray cfgWindow 1 (fun _ _ => 0) 0 2 = baseStim cfgWindow 1 0 2) :=
  C2_stimulus cfgWindow 1 2 3 (fun _ _ => 0) 0 2 one_pos
    (by norm_num [cfgWindow, defaultConfig])
    (by norm_num [cfgWindow, defaultConfig])
    (by norm_num [timeSteps, cfgWindow, defaultConfig])

/-- C4 counterexample: for the modular configuration N = 4, n_modules = 2
with swapped probabilities p_intra = 0.01 < p_inter = 0.8 (all other inputs
valid), `validate_inputs` returns a nonempty error list consisting exactly
of the p_intra/p_inter message, and the index route blocks the run on that
list exactly as on any hard error — validation does not accept the
configuration, so the condition is not warning-class. -/
theorem C4_cex :
    validate_inputs 1 0 100 (6/5) 4 0 100 (some "modular") true tpSwap
      = [modularWarnMsg]
    ∧ indexDecision
        (validate_inputs 1 0 100 (6/5) 4 0 100 (some "modular") true tpSwap
          ++ customModelErrors "lif" "" "" "") defaultConfig true zeroEnv
      = .blocked [modularWarnMsg] := by
  have h1 : validate_inputs 1 0 100 (6/5) 4 0 100 (some "modular") true tpSwap
      = [modularWarnMsg] := by
    norm_num [validate_inputs, truthyStr, tpSwap,
      (rfl : Int.fdiv 4 2 = 2),
      abs_of_pos (show (0 : ℚ) < 1/5 by norm_num)]
    decide
  refine ⟨h1, ?_⟩
  rw [h1]
  simp [customModelErrors, indexDecision]

/-- C4 amended: when p_intra < p_inter (modular topology, synapses on),
`validate_inputs` appends the recommendation-worded message to the same
error list as hard errors, and the index route blocks any run whose error
list is nonempty, so such configurations are rejected rather than run;
the two probability values themselves are never modified or swapped —
validation only produces messages. -/
theorem C4_warning_blocks (thr rst st ic : ℚ) (nn : ℤ) (cs cd : ℚ)
    (tp : TopologyParams)
    (hlt : tp.topology_p_intra < tp.topology_p_inter) :
    modularWarnMsg ∈ validate_inputs thr rst st ic nn cs cd
      (some "modular") true tp
    ∧ (∀ (errs : List String) (cfg : Config) (hv : Bool) (env : NxEnv),
        modularWarnMsg ∈ errs →
          indexDecision errs cfg hv env = .blocked errs) := by
  constructor
  · simp [validate_inputs, truthyStr, hlt]
  · intro errs cfg hv env hmem
    unfold indexDecision
    rw [if_neg (List.ne_nil_of_mem hmem)]

theorem C4_warning_blocks_witness :
    modularWarnMsg ∈ validate_inputs 1 0 100 (6/5) 4 0 100
      (some "modular") true tpSwap
    ∧ (∀ (errs : List String) (cfg : Config) (hv : Bool) (env : NxEnv),
        modularWarnMsg ∈ errs →
          indexDecision errs cfg hv env = .blocked errs) :=
  C4_warning_blocks 1 0 100 (6/5) 4 0 100 tpSwap (by norm_num [tpSwap])

/-- C8: a Custom-model configuration whose equations, threshold and reset
strings are all empty is rejected before any computation, whatever the
other parameters: the index route's error list contains the message naming
all three required fields (equations, threshold, reset are substrings of
it), and the decision is `blocked`. -/
theorem C8_custom_empty_fields (thr rst st ic : ℚ) (nn : ℤ) (cs cd : ℚ)
    (tt : Option String) (se : Bool) (tp : TopologyParams)
    (cfg : Config) (hv : Bool) (env : NxEnv) :
    customRequiredMsg ∈ indexErrors thr rst st ic nn cs cd tt se tp
      "custom" "" "" ""
    ∧ (∃ errs, indexDecision
          (indexErrors thr rst st ic nn cs cd tt se tp "custom" "" "" "")
          cfg hv env = .blocked errs ∧ customRequiredMsg ∈ errs)
    ∧ (∃ x y, customRequiredMsg = x ++ "equations" ++ y)
    ∧ (∃ x y, customRequiredMsg = x ++ "threshold" ++ y)
    ∧ (∃ x y, customRequiredMsg = x ++ "reset" ++ y) := by
  have hb : isBlank "" = true := by decide
  have hc : customModelErrors "custom" "" "" "" = [customRequiredMsg] := by
    simp [customModelErrors, hb]
  have hmem : customRequiredMsg ∈
      indexErrors thr rst st ic nn cs cd tt se tp "custom" "" "" "" := by
    unfold indexErrors
    rw [hc]
    exact List.mem_append_right _ (List.mem_singleton_self _)
  refine ⟨hmem, ⟨_, ?_, hmem⟩,
    ⟨"Custom model: ", ", threshold, and reset are required.", by decide⟩,
    ⟨"Custom model: equations, ", ", and reset are required.", by decide⟩,
    ⟨"Custom model: equations, threshold, and ", " are required.", by decide⟩⟩
  unfold indexDecision
  rw [if_neg (List.ne_nil_of_mem hmem)]

/-- C1: for a Configuration whose duration is steps·dt (so that steps =
duration/dt, the TimeGrid step count), the integration loop of §4.5 —
modelled from the spec, since Brian2's `net.run`/`StateMonitor`/
`SpikeMonitor` implement it externally — produces a StateTrace with exactly
steps+1 snapshots, each holding one value per unit (an N × (steps+1)
matrix), and a SpikeLog whose step values are nondecreasing. -/
theorem C1_trace_and_spikelog (cfg : Config)
    (stepFn : ℕ → List ℚ → List ℚ × List ℕ) (s0 : List ℚ) (steps : ℕ)
    (hsteps : cfg.sim_time = steps * defaultDt)
    (h0 : s0.length = cfg.num_neurons)
    (hpres : ∀ t s, ((stepFn t s).1).length = s.length) :
    (run_loop stepFn s0 steps).1.length = steps + 1
    ∧ (∀ snap ∈ (run_loop stepFn s0 steps).1, snap.length = cfg.num_neurons)
    ∧ (run_loop stepFn s0 steps).2.Pairwise (fun e f => e.1 ≤ f.1)
    ∧ timeSteps cfg.sim_time defaultDt = steps := by
  refine ⟨runLoopFrom_trace_length stepFn (steps + 1) s0 0,
    runLoopFrom_snap_length stepFn cfg.num_neurons hpres (steps + 1) s0 0 h0,
    runLoopFrom_log_sorted stepFn (steps + 1) s0 0, ?_⟩
  rw [hsteps]
  unfold timeSteps
  rw [mul_div_assoc, div_self (by norm_num [defaultDt] : defaultDt ≠ 0),
    mul_one, Int.ceil_natCast]
  exact Int.toNat_natCast steps

theorem C1_trace_and_spikelog_witness :
    (run_loop traceStep [0] 3).1.length = 3 + 1
    ∧ (∀ snap ∈ (run_loop traceStep [0] 3).1, snap.length = cfgTrace.num_neurons)
    ∧ (run_loop traceStep [0] 3).2.Pairwise (fun e f => e.1 ≤ f.1)
    ∧ timeSteps cfgTrace.sim_time defaultDt = 3 :=
  C1_trace_and_spikelog cfgTrace traceStep [0] 3
    (by norm_num [cfgTrace, defaultConfig, defaultDt]) rfl (fun _ _ => rfl)
